import Mathlib

/-
Verification of the ycsettings settings-resolution engine
(`ycsettings/settings.py`) against its design specification.

The embedding below transcribes the core of `settings.py`:

* `Value` models the Python values stored in a settings mapping
  (strings, ints, bools, None).  A mapping is an association list of
  `(key, value)` pairs, which models a Python `dict` with its insertion
  iteration order; Python's key-uniqueness invariant is taken as a
  hypothesis where a theorem needs it.
* `registerPair` / `buildNamed` transcribe the registration loop in
  `Settings.__init__` (lines 81-90): skip falsy mappings, warn on a
  duplicate name, then assign into the `OrderedDict` (which keeps the
  original position of an existing key and replaces its value).
* `Settings.get` transcribes `Settings.get` (lines 219-278): effective
  flags, key normalization, the raw-value cache, the priority scan with
  case-insensitive ambiguity detection, the missing-key policy and the
  cache write of the raw (pre-cast) value.
* `stringToBool` transcribes the inner `_string_to_bool` of
  `Settings.getbool` (lines 287-296), keeping the literal `'None'`
  element of the falsy tuple exactly as written in the source.
* `parse_n_jobs` (lines 444-486) is transcribed with the regex
  `(\d*(?:\.\d*)?)?(\s*\*?\s*n)?$` unfolded into a deterministic
  matcher (the character classes of the two groups are disjoint, so
  the greedy match is the only possible one) and with Python float
  literals modelled exactly as fractions (`Frac`).
* `genYields` / `genAll` transcribe the `__iter__` generator
  (lines 412-436): `genAll` is a complete run, `genYields` is a run
  that the consumer abandons after a given number of yields.

Python's `str.lower` and `str.strip` are modelled by `lowerStr` and
`trimStr` below, which implement the ASCII case mapping and ASCII
whitespace stripping (they agree with Python on ASCII data).
Exceptions are modelled with `Except`, and `warnings.warn` calls are
collected into lists.
-/

/-- ASCII lower-casing of one character, as `str.lower` does. -/
def lowerChar (c : Char) : Char :=
  if 'A' ≤ c ∧ c ≤ 'Z' then Char.ofNat (c.toNat + 32) else c

/-- Model of Python `str.lower`. -/
def lowerStr (s : String) : String :=
  String.mk (s.data.map lowerChar)

/-- Model of Python `str.strip`: drop whitespace from both ends. -/
def trimStr (s : String) : String :=
  String.mk
    (((s.data.dropWhile Char.isWhitespace).reverse.dropWhile
        Char.isWhitespace).reverse)

inductive Value where
  | none
  | str (s : String)
  | int (i : Int)
  | bool (b : Bool)
  deriving DecidableEq, Repr

/-- Warnings emitted through `warnings.warn`, identified by call site. -/
inductive Warning where
  | duplicateName (name : String)
  | ambiguousKey (key : String) (source : String)
  | missingKey (key : String)
  | njobsInvalid (n : Int)
  deriving DecidableEq, Repr

/-- A settings mapping: a Python dict as an ordered association list. -/
abbrev Mapping := List (String × Value)

/-- Python dict lookup `m[k]` (first pair with the given key). -/
def dictLookup (m : Mapping) (k : String) : Option Value :=
  (m.find? (fun p => p.1 == k)).map (fun p => p.2)

/-- State of a `Settings` instance: the flags fixed at construction,
the ordered `_settings` table, the `_cache`, and `_union_keys`. -/
structure Settings where
  caseSensitive : Bool
  raiseException : Bool
  warnMissing : Bool
  settingsList : List (String × Mapping)
  cache : List (String × Value)
  unionKeys : Option (List String)
  deriving Repr

/-- Registration step of `Settings.__init__` (lines 82-89): a falsy
(empty) mapping is skipped; a duplicate name emits a warning and the
`OrderedDict` assignment replaces the stored mapping in place. -/
def registerPair (acc : List (String × Mapping) × List Warning)
    (p : String × Mapping) : List (String × Mapping) × List Warning :=
  if p.2.isEmpty then acc
  else if acc.1.any (fun q => q.1 == p.1) then
    (acc.1.map (fun q => if q.1 == p.1 then (q.1, p.2) else q),
     acc.2 ++ [Warning.duplicateName p.1])
  else (acc.1 ++ [p], acc.2)

/-- Registration loop of `Settings.__init__` over the `(name, mapping)`
pairs produced by the source adapter, in order. -/
def buildNamed (pairs : List (String × Mapping)) :
    List (String × Mapping) × List Warning :=
  pairs.foldl registerPair ([], [])

/-- Lookup of a name in the `_settings` table. -/
def lookupNamed (od : List (String × Mapping)) (name : String) :
    Option Mapping :=
  (od.find? (fun q => q.1 == name)).map (fun q => q.2)

/-- Construction of a `Settings` instance from flags and the adapter
output: the registration loop runs once, cache and union keys start
empty, warnings are returned alongside. -/
def initSettings (cs re wm : Bool) (pairs : List (String × Mapping)) :
    Settings × List Warning :=
  let built := buildNamed pairs
  ({ caseSensitive := cs, raiseException := re, warnMissing := wm,
     settingsList := built.1, cache := [], unionKeys := none }, built.2)

/-- Effective case sensitivity of a `get` call (per-call override or
instance default). -/
def effCS (st : Settings) (cs? : Option Bool) : Bool :=
  cs?.getD st.caseSensitive

/-- Normalized lookup key of a `get` call (line 238 of the source). -/
def effKey (st : Settings) (cs? : Option Bool) (key : String) : String :=
  if effCS st cs? then key else lowerStr key

/-- Keys of a mapping whose lower-cased form equals the normalized key
(`possible_keys`, line 253 of the source). -/
def possibleKeysCI (m : Mapping) (key : String) : List String :=
  (m.map Prod.fst).filter (fun k => lowerStr k == key)

/-- Match of a single mapping during the scan in `Settings.get`:
exact containment when case-sensitive, otherwise the first key of
`possible_keys` with an ambiguity flag when there are several. -/
def mappingMatch (cs : Bool) (key : String) (m : Mapping) :
    Option (Value × Bool) :=
  if cs then (dictLookup m key).map (fun v => (v, false))
  else
    match possibleKeysCI m key with
    | [] => Option.none
    | k :: ks => some ((dictLookup m k).getD Value.none, !ks.isEmpty)

/-- Priority scan over the `_settings` table (lines 245-265): the first
mapping that matches wins and the scan stops there. -/
def scanSettings (cs : Bool) (key : String) :
    List (String × Mapping) → Option (String × Value × Bool)
  | [] => Option.none
  | (name, m) :: rest =>
    match mappingMatch cs key m with
    | some (v, amb) => some (name, v, amb)
    | Option.none => scanSettings cs key rest

/-- Application of the optional `cast_func` argument. -/
def applyCast (f : Option (Value → Value)) (v : Value) : Value :=
  match f with
  | some g => g v
  | Option.none => v

/-- Outcome of a `get` call: the returned value or the raised
`MissingSettingException`, the instance state afterwards, and the
warnings emitted during the call. -/
structure GetOut where
  result : Except Unit Value
  state : Settings
  warnings : List Warning

/-- Transcription of `Settings.get` (lines 219-278).  Arguments mirror
the Python signature: `dflt` is `default`, `f` is `cast_func`, and the
three `Option Bool` arguments are the per-call flag overrides. -/
def Settings.get (st : Settings) (key : String) (dflt : Value)
    (f : Option (Value → Value))
    (cs? re? wm? : Option Bool) : GetOut :=
  let re := re?.getD st.raiseException
  let wm := wm?.getD st.warnMissing
  let k := effKey st cs? key
  match dictLookup st.cache k with
  | some v => ⟨Except.ok (applyCast f v), st, []⟩
  | Option.none =>
    match scanSettings (effCS st cs?) k st.settingsList with
    | Option.none =>
      if re then ⟨Except.error (), st, []⟩
      else ⟨Except.ok dflt, st,
            if wm then [Warning.missingKey k] else []⟩
    | some (name, v, amb) =>
      ⟨Except.ok (applyCast f v),
       { st with cache := st.cache ++ [(k, v)] },
       if amb then [Warning.ambiguousKey k name] else []⟩

/-- Transcription of the inner `_string_to_bool` of `Settings.getbool`
(lines 287-296).  The falsy tuple is kept exactly as in the source: it
contains the literal string `'None'` with a capital N, compared against
the lower-cased input. -/
def stringToBool (v : Value) : Except Unit Bool :=
  match v with
  | Value.str s =>
    let t := lowerStr (trimStr s)
    if t == "true" || t == "t" || t == "1" then Except.ok true
    else if t == "false" || t == "f" || t == "0" || t == "None"
        || t == "null" || t == "" then Except.ok false
    else Except.error ()
  | Value.none => Except.ok false
  | Value.int i => Except.ok (i != 0)
  | Value.bool b => Except.ok b

/-- An exact fraction `num / den` (no normalization); `den` is kept
positive by construction.  Python float values and the decimal
coefficients of `parse_n_jobs` are modelled exactly by these. -/
structure Frac where
  num : Int
  den : Nat
  deriving DecidableEq, Repr

/-- Python values accepted by `parse_n_jobs`: ints, floats (modelled
exactly as fractions), strings, and anything else. -/
inductive PyVal where
  | int (i : Int)
  | float (x : Frac)
  | str (s : String)
  | other

/-- Error classes raised by `parse_n_jobs`. -/
inductive PyErr where
  | valueError
  | typeError
  deriving DecidableEq, Repr

/-- Python `int()` applied to a fraction: truncation toward zero. -/
def fracTrunc (x : Frac) : Int :=
  if x.num < 0 then -((x.num.natAbs / x.den : Nat) : Int)
  else ((x.num.natAbs / x.den : Nat) : Int)

/-- Multiplication of a coefficient by the CPU count (`k * N`). -/
def fracMulNat (x : Frac) (N : Nat) : Frac :=
  ⟨x.num * (N : Int), x.den⟩

/-- Greedy match of the first regex group `(\d*(?:\.\d*)?)?` at the
start of the input; returns the matched text and the remainder.  The
group's characters (digits and the dot) are disjoint from everything
the rest of the pattern can consume, so the greedy match is the only
viable one. -/
def njGroup1 (cs : List Char) : String × List Char :=
  let ds := cs.takeWhile (fun c => c.isDigit)
  let r1 := cs.dropWhile (fun c => c.isDigit)
  match r1 with
  | '.' :: r2 =>
    (String.mk (ds ++ '.' :: r2.takeWhile (fun c => c.isDigit)),
     r2.dropWhile (fun c => c.isDigit))
  | _ => (String.mk ds, r1)

/-- Match of the remainder of the pattern, `(\s*\*?\s*n)?$`: either the
remainder is empty (group absent) or it is whitespace, an optional
star, whitespace, and a final `n`.  Returns whether group 2 matched. -/
def njTail (cs : List Char) : Option Bool :=
  if cs.isEmpty then some false
  else
    let r1 := cs.dropWhile (fun c => c.isWhitespace)
    let r2 := match r1 with
      | '*' :: t => t
      | _ => r1
    match r2.dropWhile (fun c => c.isWhitespace) with
    | ['n'] => some true
    | _ => Option.none

/-- Full anchored match of `(\d*(?:\.\d*)?)?(\s*\*?\s*n)?$` against a
(pre-stripped) string: the text of group 1 and the presence of
group 2, or `none` when the pattern does not match. -/
def njMatch (s : String) : Option (String × Bool) :=
  let g1 := njGroup1 s.toList
  match njTail g1.2 with
  | some g2 => some (g1.1, g2)
  | Option.none => Option.none

/-- Numeric value of a digit run, as Python reads it. -/
def digitsVal (ds : List Char) : Nat :=
  ds.foldl (fun a c => a * 10 + (c.toNat - 48)) 0

/-- Python `float()` on the text matched by group 1 (digits with an
optional dot): exact decimal value, or failure on a lone dot. -/
def parseDecimal (s : String) : Option Frac :=
  let cs := s.toList
  let ds := cs.takeWhile (fun c => c.isDigit)
  match cs.dropWhile (fun c => c.isDigit) with
  | [] =>
    if ds.isEmpty then Option.none
    else some ⟨(digitsVal ds : Int), 1⟩
  | '.' :: fs =>
    if fs.all (fun c => c.isDigit) then
      if ds.isEmpty && fs.isEmpty then Option.none
      else some ⟨((digitsVal ds * 10 ^ fs.length + digitsVal fs : Nat) : Int),
                 10 ^ fs.length⟩
    else Option.none
  | _ => Option.none

/-- Coefficient `k` of `parse_n_jobs` (line 472): 1 when group 1 is
empty or absent, otherwise `float(group 1)`. -/
def njCoeff (g1 : String) : Option Frac :=
  if g1 == "" then some ⟨1, 1⟩ else parseDecimal g1

/-- Arithmetic core of `parse_n_jobs` (lines 473-475 plus the `int()`
on line 479): CPU-relative when group 2 matched or the coefficient is
below 1 (`k < 1` is `num < den`), absolute otherwise. -/
def njArith (N : Nat) (k : Frac) (g2 : Bool) : Int :=
  if g2 then fracTrunc (fracMulNat k N)
  else if k.num < (k.den : Int) then fracTrunc (fracMulNat k N)
  else fracTrunc k

/-- String branch of `parse_n_jobs` (lines 468-475). -/
def njString (N : Nat) (s : String) : Except PyErr Int :=
  match njMatch (trimStr s) with
  | Option.none => Except.error PyErr.valueError
  | some (g1, g2) =>
    match njCoeff g1 with
    | Option.none => Except.error PyErr.valueError
    | some k => Except.ok (njArith N k g2)

/-- Type dispatch of `parse_n_jobs` (lines 464-477). -/
def njStep (N : Nat) (v : PyVal) : Except PyErr Int :=
  match v with
  | PyVal.int i => Except.ok i
  | PyVal.float x => Except.ok (fracTrunc x)
  | PyVal.str s => njString N s
  | PyVal.other => Except.error PyErr.typeError

/-- Clamping step of `parse_n_jobs` (lines 479-483): a non-positive
result warns and becomes 1.  The boolean records the warning. -/
def njClamp (r : Except PyErr Int) : Except PyErr (Int × Bool) :=
  match r with
  | Except.error e => Except.error e
  | Except.ok n => if n ≤ 0 then Except.ok (1, true) else Except.ok (n, false)

/-- Transcription of `parse_n_jobs` (lines 444-486), parameterized by
the detected CPU count `N`.  The result pairs the returned job count
with whether the non-positive warning fired. -/
def parse_n_jobs (N : Nat) (v : PyVal) : Except PyErr (Int × Bool) :=
  njClamp (njStep N v)

/-- Raw keys of all mappings in table order then natural mapping
order, as visited by the loop of `Settings.__iter__` (lines 416-417). -/
def allRawKeys (l : List (String × Mapping)) : List String :=
  (l.map (fun p => p.2.map Prod.fst)).flatten

/-- Key stream of `Settings.__iter__` after the per-key normalization
on line 418. -/
def pendingKeys (st : Settings) : List String :=
  (allRawKeys st.settingsList).map
    (fun k => if st.caseSensitive then k else lowerStr k)

/-- Run of the `__iter__` generator body that the consumer abandons
after `j` yields: keys already in `seen` are skipped (line 419), every
yielded key is recorded, and the run stops once `j` keys have been
produced.  The returned list is both the sequence of yields and the
content of `_union_keys` at abandonment time, since the generator
appends each key to `_union_keys` just before yielding it. -/
def genYields : List String → List String → Nat → List String
  | [], _, _ => []
  | _ :: _, _, 0 => []
  | k :: rest, seen, j+1 =>
    if seen.contains k then genYields rest seen (j+1)
    else k :: genYields rest (k :: seen) j

/-- Complete run of the `__iter__` generator body: the full
deduplicated union-key sequence. -/
def genAll : List String → List String → List String
  | [], _ => []
  | k :: rest, seen =>
    if seen.contains k then genAll rest seen
    else k :: genAll rest (k :: seen)

/-- Keys produced by iterating a `Settings` instance: the memoized
`_union_keys` when present, otherwise a full first run. -/
def iterKeys (st : Settings) : List String :=
  match st.unionKeys with
  | some l => l
  | Option.none => genAll (pendingKeys st) []

/-- State after the first `__iter__` run is abandoned having yielded
`j` keys: `_union_keys` holds exactly those keys. -/
def abandonFirstIter (st : Settings) (j : Nat) : Settings :=
  { st with unionKeys := some (genYields (pendingKeys st) [] j) }

/-- Transcription of `Settings.__len__` (lines 431-436): build the
union keys if needed, then take their length. -/
def lenSettings (st : Settings) : Nat :=
  (iterKeys st).length

/-! Helper lemmas about the embedded operations. -/

theorem dictLookup_append_of_none (m : Mapping) (k : String) (v : Value)
    (h : dictLookup m k = Option.none) :
    dictLookup (m ++ [(k, v)]) k = some v := by
  have h' : m.find? (fun p => p.1 == k) = Option.none := by
    cases hf : m.find? (fun p => p.1 == k) with
    | none => rfl
    | some p => rw [dictLookup, hf] at h; simp at h
  simp [dictLookup, List.find?_append, h', List.find?]

theorem scanSettings_append_of_none (cs : Bool) (key : String)
    (l1 l2 : List (String × Mapping))
    (h : scanSettings cs key l1 = Option.none) :
    scanSettings cs key (l1 ++ l2) = scanSettings cs key l2 := by
  induction l1 with
  | nil => simp
  | cons p t ih =>
    obtain ⟨name, m⟩ := p
    have hexp : ∀ l' : List (String × Mapping),
        scanSettings cs key ((name, m) :: l') =
          (match mappingMatch cs key m with
           | some (v, amb) => some (name, v, amb)
           | Option.none => scanSettings cs key l') := fun _ => rfl
    rw [List.cons_append, hexp]
    rw [hexp] at h
    cases hm : mappingMatch cs key m with
    | some r =>
      rw [hm] at h
      obtain ⟨v, amb⟩ := r
      exact Option.noConfusion h
    | none =>
      rw [hm] at h
      exact ih h

theorem lookupNamed_replace (od : List (String × Mapping)) (name : String)
    (m : Mapping) (h : od.any (fun q => q.1 == name) = true) :
    lookupNamed (od.map (fun q => if q.1 == name then (q.1, m) else q)) name
      = some m := by
  induction od with
  | nil => simp at h
  | cons q t ih =>
    simp only [List.any_cons, Bool.or_eq_true] at h
    by_cases hq : (q.1 == name) = true
    · simp [lookupNamed, List.find?, hq]
    · have ht : t.any (fun q => q.1 == name) = true := by
        rcases h with h | h
        · exact absurd h hq
        · exact h
      simp only [List.map_cons, if_neg hq]
      simpa [lookupNamed, List.find?, hq] using ih ht

theorem map_replace_fst (od : List (String × Mapping)) (name : String)
    (m : Mapping) :
    (od.map (fun q => if q.1 == name then (q.1, m) else q)).map Prod.fst
      = od.map Prod.fst := by
  induction od with
  | nil => rfl
  | cons q t ih =>
    simp only [List.map_cons, ih]
    by_cases hq : (q.1 == name) = true <;> simp [hq]

/-- C1: the check at insert time warns on a duplicate name, but the
`OrderedDict` assignment still runs, so the later mapping is stored
(replacing the earlier one while keeping its position) and the claim
that the first registration wins is false: on two registrations under
the name `a`, `get` consults the second mapping and returns its value. -/
theorem c1_first_registration_wins_false :
    (initSettings true false true
        [("a", [("x", Value.int 1)]), ("a", [("x", Value.int 2)])]).2
      = [Warning.duplicateName "a"] ∧
    lookupNamed (initSettings true false true
        [("a", [("x", Value.int 1)]), ("a", [("x", Value.int 2)])]).1.settingsList "a"
      = some [("x", Value.int 2)] ∧
    ((initSettings true false true
        [("a", [("x", Value.int 1)]), ("a", [("x", Value.int 2)])]).1.get
        "x" Value.none Option.none Option.none Option.none Option.none).result
      = Except.ok (Value.int 2) ∧
    Value.int 2 ≠ Value.int 1 :=
  ⟨rfl, rfl, rfl, by decide⟩

/-- C1 (amended): when a second `(name, mapping)` pair is registered
under a name already present in the table, a non-fatal warning is
emitted and the later mapping **replaces** the earlier one, keeping the
original position in the priority order, so the mapping registered
last under that name is the one the table holds from then on. -/
theorem c1_duplicate_name_warns_and_replaces
    (od : List (String × Mapping)) (ws : List Warning)
    (name : String) (m : Mapping)
    (hm : m.isEmpty = false)
    (hdup : od.any (fun q => q.1 == name) = true) :
    lookupNamed (registerPair (od, ws) (name, m)).1 name = some m ∧
    (registerPair (od, ws) (name, m)).2 = ws ++ [Warning.duplicateName name] ∧
    (registerPair (od, ws) (name, m)).1.map Prod.fst = od.map Prod.fst := by
  refine ⟨?_, ?_, ?_⟩
  · simpa [registerPair, hm, hdup] using lookupNamed_replace od name m hdup
  · simp [registerPair, hm, hdup]
  · simpa [registerPair, hm, hdup] using map_replace_fst od name m

theorem c1_duplicate_name_warns_and_replaces_witness :
    lookupNamed (registerPair ([("a", [("x", Value.int 1)])], [])
        ("a", [("x", Value.int 2)])).1 "a" = some [("x", Value.int 2)] ∧
    (registerPair ([("a", [("x", Value.int 1)])], [])
        ("a", [("x", Value.int 2)])).2 = [] ++ [Warning.duplicateName "a"] ∧
    (registerPair ([("a", [("x", Value.int 1)])], [])
        ("a", [("x", Value.int 2)])).1.map Prod.fst
      = [("a", [("x", Value.int 1)])].map Prod.fst :=
  c1_duplicate_name_warns_and_replaces [("a", [("x", Value.int 1)])] []
    "a" [("x", Value.int 2)] (by decide) (by decide)

/-- C2: the falsy tuple in `_string_to_bool` contains the literal
`'None'`, which is compared against the lower-cased input and therefore
never matches: every casing of `none` raises the ValueError-class
coercion error instead of yielding false, contradicting the claim; the
other listed strings behave as the claim states. -/
theorem c2_getbool_none_raises :
    stringToBool (Value.str "none") = Except.error () ∧
    stringToBool (Value.str "None") = Except.error () ∧
    stringToBool (Value.str " NONE ") = Except.error () ∧
    stringToBool (Value.str "true") = Except.ok true ∧
    stringToBool (Value.str " T ") = Except.ok true ∧
    stringToBool (Value.str "1") = Except.ok true ∧
    stringToBool (Value.str "False") = Except.ok false ∧
    stringToBool (Value.str "f") = Except.ok false ∧
    stringToBool (Value.str "0") = Except.ok false ∧
    stringToBool (Value.str "NULL") = Except.ok false ∧
    stringToBool (Value.str "") = Except.ok false ∧
    stringToBool (Value.str "yes") = Except.error () :=
  ⟨rfl, rfl, rfl, rfl, rfl, rfl, rfl, rfl, rfl, rfl, rfl, rfl⟩

theorem get_cached (st : Settings) (key : String) (dflt : Value)
    (f : Option (Value → Value)) (cs? re? wm? : Option Bool) (v : Value)
    (hcache : dictLookup st.cache (effKey st cs? key) = some v) :
    st.get key dflt f cs? re? wm? = ⟨Except.ok (applyCast f v), st, []⟩ := by
  simp only [Settings.get, hcache]

theorem get_found (st : Settings) (key : String) (dflt : Value)
    (f : Option (Value → Value)) (cs? re? wm? : Option Bool)
    (name : String) (v : Value) (amb : Bool)
    (hcache : dictLookup st.cache (effKey st cs? key) = Option.none)
    (hscan : scanSettings (effCS st cs?) (effKey st cs? key) st.settingsList
      = some (name, v, amb)) :
    st.get key dflt f cs? re? wm? =
      ⟨Except.ok (applyCast f v),
       { st with cache := st.cache ++ [(effKey st cs? key, v)] },
       if amb then [Warning.ambiguousKey (effKey st cs? key) name] else []⟩ := by
  simp only [Settings.get, hcache, hscan]

theorem get_missing (st : Settings) (key : String) (dflt : Value)
    (f : Option (Value → Value)) (cs? re? wm? : Option Bool)
    (hcache : dictLookup st.cache (effKey st cs? key) = Option.none)
    (hscan : scanSettings (effCS st cs?) (effKey st cs? key) st.settingsList
      = Option.none) :
    st.get key dflt f cs? re? wm? =
      if re?.getD st.raiseException then ⟨Except.error (), st, []⟩
      else ⟨Except.ok dflt, st,
            if wm?.getD st.warnMissing
            then [Warning.missingKey (effKey st cs? key)] else []⟩ := by
  simp only [Settings.get, hcache, hscan]

/-- C3: on a cache miss the scan visits the named mappings in priority
order and stops at the first mapping containing a match, so when no
mapping before `(name, mA)` matches and `mA` does, `get` returns `mA`'s
value, and the result is the same for every choice of lower-priority
tail — the lower-priority mappings are never consulted. -/
theorem c3_first_match_wins (st : Settings) (key : String) (dflt : Value)
    (f : Option (Value → Value)) (cs? re? wm? : Option Bool)
    (pre post : List (String × Mapping)) (name : String) (mA : Mapping)
    (v : Value) (amb : Bool)
    (hsl : st.settingsList = pre ++ (name, mA) :: post)
    (hcache : dictLookup st.cache (effKey st cs? key) = Option.none)
    (hpre : scanSettings (effCS st cs?) (effKey st cs? key) pre = Option.none)
    (hA : mappingMatch (effCS st cs?) (effKey st cs? key) mA = some (v, amb)) :
    (st.get key dflt f cs? re? wm?).result = Except.ok (applyCast f v) ∧
    ∀ post' : List (String × Mapping),
      (({ st with settingsList := pre ++ (name, mA) :: post' }).get key
          dflt f cs? re? wm?).result = Except.ok (applyCast f v) := by
  have hscan : ∀ post'' : List (String × Mapping),
      scanSettings (effCS st cs?) (effKey st cs? key)
        (pre ++ (name, mA) :: post'') = some (name, v, amb) := by
    intro post''
    rw [scanSettings_append_of_none _ _ pre _ hpre]
    have hexp : scanSettings (effCS st cs?) (effKey st cs? key)
        ((name, mA) :: post'') =
        (match mappingMatch (effCS st cs?) (effKey st cs? key) mA with
         | some (v, amb) => some (name, v, amb)
         | Option.none =>
             scanSettings (effCS st cs?) (effKey st cs? key) post'') := rfl
    rw [hexp, hA]
  constructor
  · rw [get_found st key dflt f cs? re? wm? name v amb hcache
      (by rw [hsl]; exact hscan post)]
  · intro post'
    rw [get_found { st with settingsList := pre ++ (name, mA) :: post' }
      key dflt f cs? re? wm? name v amb hcache (hscan post')]

theorem c3_first_match_wins_witness :
    (Settings.get
        ⟨false, false, true,
         [("p", [("other", Value.int 0)]), ("s2", [("K", Value.int 7)]),
          ("s3", [("k", Value.int 9)])], [], Option.none⟩
        "k" Value.none Option.none Option.none Option.none Option.none).result
      = Except.ok (Value.int 7) ∧
    (Settings.get
        ⟨false, false, true,
         [("p", [("other", Value.int 0)]), ("s2", [("K", Value.int 7)])],
         [], Option.none⟩
        "k" Value.none Option.none Option.none Option.none Option.none).result
      = Except.ok (Value.int 7) :=
  ⟨(c3_first_match_wins
      ⟨false, false, true,
       [("p", [("other", Value.int 0)]), ("s2", [("K", Value.int 7)]),
        ("s3", [("k", Value.int 9)])], [], Option.none⟩
      "k" Value.none Option.none Option.none Option.none Option.none
      [("p", [("other", Value.int 0)])] [("s3", [("k", Value.int 9)])]
      "s2" [("K", Value.int 7)] (Value.int 7) false
      (by decide) (by decide) (by decide) (by decide)).1,
   (c3_first_match_wins
      ⟨false, false, true,
       [("p", [("other", Value.int 0)]), ("s2", [("K", Value.int 7)]),
        ("s3", [("k", Value.int 9)])], [], Option.none⟩
      "k" Value.none Option.none Option.none Option.none Option.none
      [("p", [("other", Value.int 0)])] [("s3", [("k", Value.int 9)])]
      "s2" [("K", Value.int 7)] (Value.int 7) false
      (by decide) (by decide) (by decide) (by decide)).2 []⟩

/-- C4: when the key is in no mapping, `get` raises the
`MissingSettingException` and emits no warning if the effective raise
flag is set; otherwise it returns the caller-supplied default,
emitting exactly one missing-key warning when the effective warn flag
is set and none when it is not. -/
theorem c4_missing_key_policy (st : Settings) (key : String) (dflt : Value)
    (f : Option (Value → Value)) (cs? re? wm? : Option Bool)
    (hcache : dictLookup st.cache (effKey st cs? key) = Option.none)
    (hscan : scanSettings (effCS st cs?) (effKey st cs? key) st.settingsList
      = Option.none) :
    (re?.getD st.raiseException = true →
      (st.get key dflt f cs? re? wm?).result = Except.error () ∧
      (st.get key dflt f cs? re? wm?).warnings = []) ∧
    (re?.getD st.raiseException = false → wm?.getD st.warnMissing = true →
      (st.get key dflt f cs? re? wm?).result = Except.ok dflt ∧
      (st.get key dflt f cs? re? wm?).warnings
        = [Warning.missingKey (effKey st cs? key)]) ∧
    (re?.getD st.raiseException = false → wm?.getD st.warnMissing = false →
      (st.get key dflt f cs? re? wm?).result = Except.ok dflt ∧
      (st.get key dflt f cs? re? wm?).warnings = []) := by
  have hg := get_missing st key dflt f cs? re? wm? hcache hscan
  refine ⟨fun hre => ?_, fun hre hwm => ?_, fun hre hwm => ?_⟩
  · rw [hg]; simp [hre]
  · rw [hg]; simp [hre, hwm]
  · rw [hg]; simp [hre, hwm]

theorem c4_missing_key_policy_witness :
    ((Settings.get ⟨false, true, true, [("s", [("a", Value.int 1)])], [],
        Option.none⟩
        "zz" (Value.str "dflt") Option.none Option.none Option.none
        Option.none).result = Except.error () ∧
      (Settings.get ⟨false, true, true, [("s", [("a", Value.int 1)])], [],
        Option.none⟩
        "zz" (Value.str "dflt") Option.none Option.none Option.none
        Option.none).warnings = []) ∧
    ((Settings.get ⟨false, false, true, [("s", [("a", Value.int 1)])], [],
        Option.none⟩
        "zz" (Value.str "dflt") Option.none Option.none Option.none
        Option.none).result = Except.ok (Value.str "dflt") ∧
      (Settings.get ⟨false, false, true, [("s", [("a", Value.int 1)])], [],
        Option.none⟩
        "zz" (Value.str "dflt") Option.none Option.none Option.none
        Option.none).warnings = [Warning.missingKey "zz"]) :=
  ⟨(c4_missing_key_policy
      ⟨false, true, true, [("s", [("a", Value.int 1)])], [], Option.none⟩
      "zz" (Value.str "dflt") Option.none Option.none Option.none Option.none
      (by decide) (by decide)).1 (by decide),
   (c4_missing_key_policy
      ⟨false, false, true, [("s", [("a", Value.int 1)])], [], Option.none⟩
      "zz" (Value.str "dflt") Option.none Option.none Option.none Option.none
      (by decide) (by decide)).2.1 (by decide) (by decide)⟩

/-- C5: a successful `get` stores the raw (pre-`cast_func`) value in
the cache under the normalized key; any later `get` whose normalized
key equals that cache key — whatever its case-sensitivity flag and
transformation function — returns its own transformation applied to
the first-cached raw value, leaves the state unchanged (so the
transformed result is never cached), and does so for any replacement
of the mappings table, i.e. without re-scanning the mappings. -/
theorem c5_cache_stores_raw (st : Settings) (key key2 : String)
    (dflt dflt2 : Value) (f g : Option (Value → Value))
    (cs? re? wm? cs2 re2 wm2 : Option Bool)
    (name : String) (v : Value) (amb : Bool)
    (hcache : dictLookup st.cache (effKey st cs? key) = Option.none)
    (hscan : scanSettings (effCS st cs?) (effKey st cs? key) st.settingsList
      = some (name, v, amb))
    (hk2 : effKey st cs2 key2 = effKey st cs? key) :
    (st.get key dflt f cs? re? wm?).result = Except.ok (applyCast f v) ∧
    (st.get key dflt f cs? re? wm?).state.cache
      = st.cache ++ [(effKey st cs? key, v)] ∧
    ((st.get key dflt f cs? re? wm?).state.get key2 dflt2 g cs2 re2 wm2).result
      = Except.ok (applyCast g v) ∧
    ((st.get key dflt f cs? re? wm?).state.get key2 dflt2 g cs2 re2 wm2).state
      = (st.get key dflt f cs? re? wm?).state ∧
    ∀ l' : List (String × Mapping),
      ((Settings.mk st.caseSensitive st.raiseException st.warnMissing l'
          (st.cache ++ [(effKey st cs? key, v)]) st.unionKeys).get
          key2 dflt2 g cs2 re2 wm2).result = Except.ok (applyCast g v) := by
  have hg := get_found st key dflt f cs? re? wm? name v amb hcache hscan
  have hc2 : dictLookup (st.cache ++ [(effKey st cs? key, v)])
      (effKey st cs? key) = some v :=
    dictLookup_append_of_none st.cache (effKey st cs? key) v hcache
  have hc2' : dictLookup
      ({ st with cache := st.cache ++ [(effKey st cs? key, v)] }).cache
      (effKey { st with cache := st.cache ++ [(effKey st cs? key, v)] }
        cs2 key2) = some v := by
    have hk2' : effKey { st with cache := st.cache ++ [(effKey st cs? key, v)] }
        cs2 key2 = effKey st cs? key := hk2
    rw [hk2']
    exact hc2
  have hcached := get_cached
    { st with cache := st.cache ++ [(effKey st cs? key, v)] }
    key2 dflt2 g cs2 re2 wm2 v hc2'
  refine ⟨?_, ?_, ?_, ?_, ?_⟩
  · rw [hg]
  · rw [hg]
  · rw [hg]
    rw [hcached]
  · rw [hg]
    rw [hcached]
  · intro l'
    have hc3 : dictLookup
        (Settings.mk st.caseSensitive st.raiseException st.warnMissing l'
          (st.cache ++ [(effKey st cs? key, v)]) st.unionKeys).cache
        (effKey (Settings.mk st.caseSensitive st.raiseException
          st.warnMissing l' (st.cache ++ [(effKey st cs? key, v)])
          st.unionKeys) cs2 key2) = some v := by
      have hk3 : effKey (Settings.mk st.caseSensitive st.raiseException
          st.warnMissing l' (st.cache ++ [(effKey st cs? key, v)])
          st.unionKeys) cs2 key2 = effKey st cs? key := hk2
      rw [hk3]
      exact hc2
    rw [get_cached
      (Settings.mk st.caseSensitive st.raiseException st.warnMissing l'
        (st.cache ++ [(effKey st cs? key, v)]) st.unionKeys)
      key2 dflt2 g cs2 re2 wm2 v hc3]

theorem c5_cache_stores_raw_witness :
    (Settings.get ⟨false, false, true, [("s", [("A", Value.str "raw")])],
        [], Option.none⟩ "A" Value.none Option.none Option.none Option.none
        Option.none).result = Except.ok (Value.str "raw") ∧
    (Settings.get ⟨false, false, true, [("s", [("A", Value.str "raw")])],
        [], Option.none⟩ "A" Value.none Option.none Option.none Option.none
        Option.none).state.cache = [] ++ [("a", Value.str "raw")] ∧
    ((Settings.get ⟨false, false, true, [("s", [("A", Value.str "raw")])],
        [], Option.none⟩ "A" Value.none Option.none Option.none Option.none
        Option.none).state.get "a" Value.none (some (fun _ => Value.int 5))
        (some true) Option.none Option.none).result
      = Except.ok (Value.int 5) ∧
    ((Settings.get ⟨false, false, true, [("s", [("A", Value.str "raw")])],
        [], Option.none⟩ "A" Value.none Option.none Option.none Option.none
        Option.none).state.get "a" Value.none (some (fun _ => Value.int 5))
        (some true) Option.none Option.none).state
      = (Settings.get ⟨false, false, true, [("s", [("A", Value.str "raw")])],
        [], Option.none⟩ "A" Value.none Option.none Option.none Option.none
        Option.none).state ∧
    ((Settings.mk false false true [] ([] ++ [("a", Value.str "raw")])
        Option.none).get "a" Value.none (some (fun _ => Value.int 5))
        (some true) Option.none Option.none).result
      = Except.ok (Value.int 5) :=
  ⟨(c5_cache_stores_raw
      ⟨false, false, true, [("s", [("A", Value.str "raw")])], [], Option.none⟩
      "A" "a" Value.none Value.none Option.none
      (some (fun _ => Value.int 5)) Option.none Option.none Option.none
      (some true) Option.none Option.none "s" (Value.str "raw") false
      (by decide) (by decide) (by decide)).1,
   (c5_cache_stores_raw
      ⟨false, false, true, [("s", [("A", Value.str "raw")])], [], Option.none⟩
      "A" "a" Value.none Value.none Option.none
      (some (fun _ => Value.int 5)) Option.none Option.none Option.none
      (some true) Option.none Option.none "s" (Value.str "raw") false
      (by decide) (by decide) (by decide)).2.1,
   (c5_cache_stores_raw
      ⟨false, false, true, [("s", [("A", Value.str "raw")])], [], Option.none⟩
      "A" "a" Value.none Value.none Option.none
      (some (fun _ => Value.int 5)) Option.none Option.none Option.none
      (some true) Option.none Option.none "s" (Value.str "raw") false
      (by decide) (by decide) (by decide)).2.2.1,
   (c5_cache_stores_raw
      ⟨false, false, true, [("s", [("A", Value.str "raw")])], [], Option.none⟩
      "A" "a" Value.none Value.none Option.none
      (some (fun _ => Value.int 5)) Option.none Option.none Option.none
      (some true) Option.none Option.none "s" (Value.str "raw") false
      (by decide) (by decide) (by decide)).2.2.2.1,
   (c5_cache_stores_raw
      ⟨false, false, true, [("s", [("A", Value.str "raw")])], [], Option.none⟩
      "A" "a" Value.none Value.none Option.none
      (some (fun _ => Value.int 5)) Option.none Option.none Option.none
      (some true) Option.none Option.none "s" (Value.str "raw") false
      (by decide) (by decide) (by decide)).2.2.2.2 []⟩

theorem get_key_congr (st : Settings) (k1 k2 : String) (dflt : Value)
    (f : Option (Value → Value)) (cs? re? wm? : Option Bool)
    (h : effKey st cs? k1 = effKey st cs? k2) :
    st.get k1 dflt f cs? re? wm? = st.get k2 dflt f cs? re? wm? := by
  unfold Settings.get
  rw [h]

/-- C7: with a case-insensitive lookup, `get` normalizes the key by
lower-casing before consulting the cache and the mappings, so any two
casings of the same logical key (in particular the key itself and its
lower-cased form) produce identical outcomes whenever exactly one
source defines the key. -/
theorem c7_casing_irrelevant (st : Settings) (K K2 : String) (dflt : Value)
    (f : Option (Value → Value)) (re? wm? : Option Bool)
    (hl : lowerStr K = lowerStr K2)
    (hone : (st.settingsList.filter
        (fun p => p.2.any (fun q => lowerStr q.1 == lowerStr K))).length
      = 1) :
    st.get K dflt f (some false) re? wm?
      = st.get K2 dflt f (some false) re? wm? :=
  get_key_congr st K K2 dflt f (some false) re? wm? hl

theorem c7_casing_irrelevant_witness :
    Settings.get ⟨false, false, true, [("s", [("FOO", Value.int 3)])], [],
        Option.none⟩ "FoO" Value.none Option.none (some false) Option.none
        Option.none
      = Settings.get ⟨false, false, true, [("s", [("FOO", Value.int 3)])],
        [], Option.none⟩ "foo" Value.none Option.none (some false)
        Option.none Option.none := by
  have h := c7_casing_irrelevant
    ⟨false, false, true, [("s", [("FOO", Value.int 3)])], [], Option.none⟩
    "FoO" "foo" Value.none Option.none Option.none Option.none
    (by decide) (by decide)
  exact h

/-- C8: in a case-insensitive lookup, when the matching mapping holds
more than one key whose lower-cased form equals the normalized key,
`get` emits one ambiguity warning naming the normalized key and the
source, and returns the value of the first such key in the mapping's
iteration order. -/
theorem c8_ambiguous_keys_warn (st : Settings) (name : String) (m : Mapping)
    (rest : List (String × Mapping)) (key : String) (dflt : Value)
    (f : Option (Value → Value)) (re? wm? : Option Bool)
    (k1 k2 : String) (ks : List String) (v : Value)
    (hsl : st.settingsList = (name, m) :: rest)
    (hcache : dictLookup st.cache (lowerStr key) = Option.none)
    (hpk : possibleKeysCI m (lowerStr key) = k1 :: k2 :: ks)
    (hv : dictLookup m k1 = some v) :
    (st.get key dflt f (some false) re? wm?).warnings
      = [Warning.ambiguousKey (lowerStr key) name] ∧
    (st.get key dflt f (some false) re? wm?).result
      = Except.ok (applyCast f v) := by
  have hmm : mappingMatch false (lowerStr key) m = some (v, true) := by
    have hexp : mappingMatch false (lowerStr key) m =
        (match possibleKeysCI m (lowerStr key) with
         | [] => Option.none
         | k :: ks => some ((dictLookup m k).getD Value.none, !ks.isEmpty)) :=
      rfl
    rw [hexp, hpk]
    show some ((dictLookup m k1).getD Value.none, !(k2 :: ks).isEmpty)
      = some (v, true)
    rw [hv]
    rfl
  have hscan : scanSettings false (lowerStr key) st.settingsList
      = some (name, v, true) := by
    rw [hsl]
    have hexp : scanSettings false (lowerStr key) ((name, m) :: rest) =
        (match mappingMatch false (lowerStr key) m with
         | some (v, amb) => some (name, v, amb)
         | Option.none => scanSettings false (lowerStr key) rest) := rfl
    rw [hexp, hmm]
  have hg := get_found st key dflt f (some false) re? wm? name v true
    hcache hscan
  refine ⟨?_, ?_⟩ <;> rw [hg] <;> rfl

theorem c8_ambiguous_keys_warn_witness :
    (Settings.get ⟨false, false, true,
        [("s", [("K", Value.int 1), ("other", Value.int 0),
                ("k", Value.int 2)])], [], Option.none⟩
        "K" Value.none Option.none (some false) Option.none
        Option.none).warnings = [Warning.ambiguousKey "k" "s"] ∧
    (Settings.get ⟨false, false, true,
        [("s", [("K", Value.int 1), ("other", Value.int 0),
                ("k", Value.int 2)])], [], Option.none⟩
        "K" Value.none Option.none (some false) Option.none
        Option.none).result = Except.ok (Value.int 1) :=
  c8_ambiguous_keys_warn
    ⟨false, false, true,
     [("s", [("K", Value.int 1), ("other", Value.int 0),
             ("k", Value.int 2)])], [], Option.none⟩
    "s" [("K", Value.int 1), ("other", Value.int 0), ("k", Value.int 2)]
    [] "K" Value.none Option.none Option.none Option.none
    "K" "k" [] (Value.int 1)
    (by decide) (by decide) (by decide) (by decide)

/-- C9: a `get` for a key found in no mapping leaves the instance
state (in particular the cache) unchanged, so an identical second call
runs through the same scan and missing-key policy and produces exactly
the same outcome, warnings included. -/
theorem c9_missing_never_cached (st : Settings) (key : String)
    (dflt : Value) (f : Option (Value → Value)) (cs? re? wm? : Option Bool)
    (hcache : dictLookup st.cache (effKey st cs? key) = Option.none)
    (hscan : scanSettings (effCS st cs?) (effKey st cs? key) st.settingsList
      = Option.none) :
    (st.get key dflt f cs? re? wm?).state = st ∧
    ((st.get key dflt f cs? re? wm?).state.get key dflt f cs? re? wm?)
      = st.get key dflt f cs? re? wm? := by
  have hg := get_missing st key dflt f cs? re? wm? hcache hscan
  have hstate : (st.get key dflt f cs? re? wm?).state = st := by
    rw [hg]
    cases hre : re?.getD st.raiseException <;> simp [hre]
  exact ⟨hstate, by rw [hstate]⟩

theorem c9_missing_never_cached_witness :
    (Settings.get ⟨false, false, true, [("s", [("a", Value.int 1)])], [],
        Option.none⟩ "zz" Value.none Option.none Option.none Option.none
        Option.none).state
      = ⟨false, false, true, [("s", [("a", Value.int 1)])], [],
         Option.none⟩ ∧
    ((Settings.get ⟨false, false, true, [("s", [("a", Value.int 1)])], [],
        Option.none⟩ "zz" Value.none Option.none Option.none Option.none
        Option.none).state.get "zz" Value.none Option.none Option.none
        Option.none Option.none)
      = Settings.get ⟨false, false, true, [("s", [("a", Value.int 1)])], [],
        Option.none⟩ "zz" Value.none Option.none Option.none Option.none
        Option.none :=
  c9_missing_never_cached
    ⟨false, false, true, [("s", [("a", Value.int 1)])], [], Option.none⟩
    "zz" Value.none Option.none Option.none Option.none Option.none
    (by decide) (by decide)

theorem genYields_eq_take : ∀ (p s : List String) (j : Nat),
    genYields p s j = (genAll p s).take j
  | [], _, j => by cases j <;> rfl
  | _ :: _, _, 0 => rfl
  | k :: rest, s, (j+1) => by
    simp only [genYields, genAll]
    by_cases hk : s.contains k = true
    · rw [if_pos hk, if_pos hk]
      exact genYields_eq_take rest s (j+1)
    · rw [if_neg hk, if_neg hk, List.take_succ_cons]
      rw [genYields_eq_take rest (k :: s) j]

theorem genAll_not_mem_seen (p : List String) :
    ∀ (s : List String) (k : String), s.contains k = true →
      k ∉ genAll p s := by
  induction p with
  | nil => intro s k _; simp [genAll]
  | cons x rest ih =>
    intro s k hk
    simp only [genAll]
    by_cases hx : s.contains x = true
    · rw [if_pos hx]; exact ih s k hk
    · rw [if_neg hx]
      intro hmem
      rcases List.mem_cons.mp hmem with h | h
      · exact hx (h ▸ hk)
      · exact ih (x :: s) k (by simp only [List.contains_cons, hk,
          Bool.or_true]) h

theorem genAll_nodup (p : List String) : ∀ s : List String,
    (genAll p s).Nodup := by
  induction p with
  | nil => intro s; simp [genAll]
  | cons x rest ih =>
    intro s
    simp only [genAll]
    by_cases hx : s.contains x = true
    · rw [if_pos hx]; exact ih s
    · rw [if_neg hx]
      refine List.nodup_cons.mpr ⟨?_, ih (x :: s)⟩
      exact genAll_not_mem_seen rest (x :: s) x (by simp)

/-- C10: if the first key-enumeration run is abandoned after `j` of
the union keys (with more remaining), the memoized `_union_keys` holds
exactly that prefix: every later iteration replays `take j` of the
full deduplicated (lower-cased when case-insensitive) key sequence,
the reported size is `j`, and the replayed keys are duplicate-free,
for the lifetime of the instance. -/
theorem c10_abandoned_iteration (st : Settings) (j : Nat)
    (hu : st.unionKeys = Option.none)
    (hj : j < (iterKeys st).length) :
    iterKeys (abandonFirstIter st j) = (iterKeys st).take j ∧
    lenSettings (abandonFirstIter st j) = j ∧
    (iterKeys (abandonFirstIter st j)).Nodup := by
  have hfull : iterKeys st = genAll (pendingKeys st) [] := by
    rw [iterKeys, hu]
  have hab : iterKeys (abandonFirstIter st j)
      = genYields (pendingKeys st) [] j := rfl
  refine ⟨?_, ?_, ?_⟩
  · rw [hab, hfull, genYields_eq_take]
  · rw [hfull] at hj
    rw [lenSettings, hab, genYields_eq_take, List.length_take]
    omega
  · rw [hab, genYields_eq_take]
    exact List.Nodup.sublist (List.take_sublist j _) (genAll_nodup _ [])

theorem c10_abandoned_iteration_witness :
    iterKeys (abandonFirstIter
      ⟨false, false, true,
       [("a", [("X", Value.int 1), ("y", Value.int 2)]),
        ("b", [("x", Value.int 3)])], [], Option.none⟩ 1)
      = (iterKeys
        ⟨false, false, true,
         [("a", [("X", Value.int 1), ("y", Value.int 2)]),
          ("b", [("x", Value.int 3)])], [], Option.none⟩).take 1 ∧
    lenSettings (abandonFirstIter
      ⟨false, false, true,
       [("a", [("X", Value.int 1), ("y", Value.int 2)]),
        ("b", [("x", Value.int 3)])], [], Option.none⟩ 1) = 1 ∧
    (iterKeys (abandonFirstIter
      ⟨false, false, true,
       [("a", [("X", Value.int 1), ("y", Value.int 2)]),
        ("b", [("x", Value.int 3)])], [], Option.none⟩ 1)).Nodup :=
  c10_abandoned_iteration
    ⟨false, false, true,
     [("a", [("X", Value.int 1), ("y", Value.int 2)]),
      ("b", [("x", Value.int 3)])], [], Option.none⟩ 1
    (by rfl) (by decide)

theorem njString_eval (N : Nat) (s g1 : String) (g2 : Bool) (k : Frac)
    (hm : njMatch (trimStr s) = some (g1, g2))
    (hk : njCoeff g1 = some k) :
    njString N s = Except.ok (njArith N k g2) := by
  unfold njString
  rw [hm]
  show (match njCoeff g1 with
        | Option.none => Except.error PyErr.valueError
        | some k => Except.ok (njArith N k g2)) = Except.ok (njArith N k g2)
  rw [hk]

theorem njString_nomatch (N : Nat) (s : String)
    (hm : njMatch (trimStr s) = Option.none) :
    njString N s = Except.error PyErr.valueError := by
  unfold njString
  rw [hm]

theorem njClamp_pos (n : Int) (h : 0 < n) :
    njClamp (Except.ok n) = Except.ok (n, false) := by
  show (if n ≤ 0 then Except.ok ((1 : Int), true)
        else Except.ok (n, false)) = Except.ok (n, false)
  rw [if_neg (by omega)]

theorem njClamp_nonpos (n : Int) (h : n ≤ 0) :
    njClamp (Except.ok n) = Except.ok (1, true) := by
  show (if n ≤ 0 then Except.ok ((1 : Int), true)
        else Except.ok (n, false)) = Except.ok (1, true)
  rw [if_pos h]

theorem parseDecimal_pos (g1 : String) (k : Frac)
    (h : parseDecimal g1 = some k) : 0 < k.den ∧ 0 ≤ k.num := by
  unfold parseDecimal at h
  dsimp only at h
  split at h
  · split at h
    · exact Option.noConfusion h
    · injection h with h'
      subst h'
      exact ⟨Nat.one_pos, Int.natCast_nonneg _⟩
  · split at h
    · split at h
      · exact Option.noConfusion h
      · injection h with h'
        subst h'
        exact ⟨by positivity, Int.natCast_nonneg _⟩
    · exact Option.noConfusion h
  · exact Option.noConfusion h

theorem one_le_fracTrunc (k : Frac) (hden : 0 < k.den)
    (h : (k.den : Int) ≤ k.num) : 1 ≤ fracTrunc k := by
  have hnn : 0 ≤ k.num := le_trans (Int.natCast_nonneg k.den) h
  rw [fracTrunc, if_neg (by omega)]
  have hle : k.den ≤ k.num.natAbs := by omega
  exact_mod_cast (Nat.one_le_div_iff hden).mpr hle

theorem natDiv_cast_eq_floor (a d : Nat) :
    ((a / d : Nat) : Int) = ⌊((a : ℚ) / (d : ℚ))⌋ := by
  rw [Rat.floor_natCast_div_natCast]
  exact Int.ofNat_div a d

theorem fracTrunc_ofNat (a d : Nat) :
    fracTrunc ⟨(a : Int), d⟩ = ((a / d : Nat) : Int) := by
  rw [fracTrunc]
  dsimp only
  rw [if_neg (by omega)]
  simp

theorem fracTrunc_mul_nat (c N : Nat) :
    fracTrunc ⟨((c : Nat) : Int) * (N : Int), 1⟩ = ((c * N : Nat) : Int) := by
  have hcast : (⟨((c : Nat) : Int) * (N : Int), 1⟩ : Frac)
      = ⟨((c * N : Nat) : Int), 1⟩ := by
    congr 1
  rw [hcast, fracTrunc_ofNat]
  simp

theorem fracTrunc_half (N : Nat) :
    fracTrunc ⟨((5 : Nat) : Int) * (N : Int), 10⟩
      = ((N / 2 : Nat) : Int) := by
  have hcast : (⟨((5 : Nat) : Int) * (N : Int), 10⟩ : Frac)
      = ⟨((5 * N : Nat) : Int), 10⟩ := by
    congr 1
  rw [hcast, fracTrunc_ofNat]
  norm_cast
  omega

/-- C6: `parse_n_jobs` with CPU count `N` maps an int to itself and a
float to its truncation toward zero (when positive); the string `n` to
`N`; `2n`, `2*n`, `2 * n` to `2 × N`; `0.5n` and the bare coefficient
`0.5` (below 1, so CPU-relative despite no `n`) to `⌊0.5 × N⌋`, which
is `N / 2`; a bare coefficient at least 1 to the absolute count; a
string not matching the grammar to a ValueError-class parse error; a
non-(int/float/str) input to a TypeError; and any computed value ≤ 0
(for example the string `0`) to 1 with a non-fatal warning. -/
theorem c6_parse_n_jobs (N : Nat) (hN : 2 ≤ N) :
    (∀ i : Int, 0 < i → parse_n_jobs N (PyVal.int i) = Except.ok (i, false)) ∧
    (∀ i : Int, i ≤ 0 → parse_n_jobs N (PyVal.int i) = Except.ok (1, true)) ∧
    (∀ x : Frac, 0 < fracTrunc x →
      parse_n_jobs N (PyVal.float x) = Except.ok (fracTrunc x, false)) ∧
    (∀ x : Frac, fracTrunc x ≤ 0 →
      parse_n_jobs N (PyVal.float x) = Except.ok (1, true)) ∧
    parse_n_jobs N (PyVal.str "n") = Except.ok ((N : Int), false) ∧
    parse_n_jobs N (PyVal.str "2n")
      = Except.ok (((2 * N : Nat) : Int), false) ∧
    parse_n_jobs N (PyVal.str "2*n")
      = Except.ok (((2 * N : Nat) : Int), false) ∧
    parse_n_jobs N (PyVal.str "2 * n")
      = Except.ok (((2 * N : Nat) : Int), false) ∧
    parse_n_jobs N (PyVal.str "0.5n")
      = Except.ok (((N / 2 : Nat) : Int), false) ∧
    parse_n_jobs N (PyVal.str "0.5")
      = Except.ok (((N / 2 : Nat) : Int), false) ∧
    ((N / 2 : Nat) : Int) = ⌊((N : ℚ) / 2)⌋ ∧
    (∀ (s g1 : String) (k : Frac), njMatch (trimStr s) = some (g1, false) →
      parseDecimal g1 = some k → (k.den : Int) ≤ k.num →
      parse_n_jobs N (PyVal.str s) = Except.ok (fracTrunc k, false)) ∧
    parse_n_jobs N (PyVal.str "0") = Except.ok (1, true) ∧
    (∀ s : String, njMatch (trimStr s) = Option.none →
      parse_n_jobs N (PyVal.str s) = Except.error PyErr.valueError) ∧
    parse_n_jobs N PyVal.other = Except.error PyErr.typeError := by
  have hNpos : (0 : Int) < ((N : Nat) : Int) := by omega
  refine ⟨?_, ?_, ?_, ?_, ?_, ?_, ?_, ?_, ?_, ?_, ?_, ?_, ?_, ?_, ?_⟩
  · intro i hi
    show njClamp (Except.ok i) = Except.ok (i, false)
    exact njClamp_pos i hi
  · intro i hi
    show njClamp (Except.ok i) = Except.ok (1, true)
    exact njClamp_nonpos i hi
  · intro x hx
    show njClamp (Except.ok (fracTrunc x)) = Except.ok (fracTrunc x, false)
    exact njClamp_pos _ hx
  · intro x hx
    show njClamp (Except.ok (fracTrunc x)) = Except.ok (1, true)
    exact njClamp_nonpos _ hx
  · have hstr : njString N "n"
        = Except.ok (fracTrunc ⟨((1 : Nat) : Int) * (N : Int), 1⟩) :=
      njString_eval N "n" "" true ⟨1, 1⟩ rfl rfl
    show njClamp (njString N "n") = Except.ok ((N : Int), false)
    rw [hstr, fracTrunc_mul_nat 1 N, Nat.one_mul]
    exact njClamp_pos _ hNpos
  · have hstr : njString N "2n"
        = Except.ok (fracTrunc ⟨((2 : Nat) : Int) * (N : Int), 1⟩) :=
      njString_eval N "2n" "2" true ⟨2, 1⟩ rfl rfl
    show njClamp (njString N "2n") = Except.ok (((2 * N : Nat) : Int), false)
    rw [hstr, fracTrunc_mul_nat 2 N]
    exact njClamp_pos _ (by omega)
  · have hstr : njString N "2*n"
        = Except.ok (fracTrunc ⟨((2 : Nat) : Int) * (N : Int), 1⟩) :=
      njString_eval N "2*n" "2" true ⟨2, 1⟩ rfl rfl
    show njClamp (njString N "2*n") = Except.ok (((2 * N : Nat) : Int), false)
    rw [hstr, fracTrunc_mul_nat 2 N]
    exact njClamp_pos _ (by omega)
  · have hstr : njString N "2 * n"
        = Except.ok (fracTrunc ⟨((2 : Nat) : Int) * (N : Int), 1⟩) :=
      njString_eval N "2 * n" "2" true ⟨2, 1⟩ rfl rfl
    show njClamp (njString N "2 * n")
      = Except.ok (((2 * N : Nat) : Int), false)
    rw [hstr, fracTrunc_mul_nat 2 N]
    exact njClamp_pos _ (by omega)
  · have hstr : njString N "0.5n"
        = Except.ok (fracTrunc ⟨((5 : Nat) : Int) * (N : Int), 10⟩) :=
      njString_eval N "0.5n" "0.5" true ⟨5, 10⟩ rfl rfl
    show njClamp (njString N "0.5n")
      = Except.ok (((N / 2 : Nat) : Int), false)
    rw [hstr, fracTrunc_half N]
    exact njClamp_pos _ (by omega)
  · have hstr : njString N "0.5"
        = Except.ok (fracTrunc ⟨((5 : Nat) : Int) * (N : Int), 10⟩) :=
      njString_eval N "0.5" "0.5" false ⟨5, 10⟩ rfl rfl
    show njClamp (njString N "0.5")
      = Except.ok (((N / 2 : Nat) : Int), false)
    rw [hstr, fracTrunc_half N]
    exact njClamp_pos _ (by omega)
  · have h := natDiv_cast_eq_floor N 2
    simpa using h
  · intro s g1 k hm hk hge
    have hd := parseDecimal_pos g1 k hk
    have hone := one_le_fracTrunc k hd.1 hge
    have hg1 : (g1 == "") = false := by
      by_cases hg : g1 = ""
      · subst hg
        rw [show parseDecimal "" = Option.none from rfl] at hk
        exact Option.noConfusion hk
      · exact beq_eq_false_iff_ne.mpr hg
    have hcoeff : njCoeff g1 = some k := by
      rw [njCoeff, hg1]
      show parseDecimal g1 = some k
      exact hk
    have hstr : njString N s = Except.ok (njArith N k false) :=
      njString_eval N s g1 false k hm hcoeff
    have harith : njArith N k false = fracTrunc k := by
      rw [njArith]
      rw [if_neg (by simp)]
      rw [if_neg (by omega)]
    show njClamp (njString N s) = Except.ok (fracTrunc k, false)
    rw [hstr, harith]
    exact njClamp_pos _ (by omega)
  · have hstr : njString N "0"
        = Except.ok (fracTrunc ⟨((0 : Nat) : Int) * (N : Int), 1⟩) :=
      njString_eval N "0" "0" false ⟨0, 1⟩ rfl rfl
    show njClamp (njString N "0") = Except.ok (1, true)
    rw [hstr, fracTrunc_mul_nat 0 N]
    exact njClamp_nonpos _ (by omega)
  · intro s hm
    show njClamp (njString N s) = Except.error PyErr.valueError
    rw [njString_nomatch N s hm]
    rfl
  · rfl

theorem c6_parse_n_jobs_witness :
    parse_n_jobs 8 (PyVal.int 3) = Except.ok (3, false) ∧
    parse_n_jobs 8 (PyVal.int 0) = Except.ok (1, true) ∧
    parse_n_jobs 8 (PyVal.float ⟨7, 2⟩) = Except.ok (3, false) ∧
    parse_n_jobs 8 (PyVal.str "n") = Except.ok (8, false) ∧
    parse_n_jobs 8 (PyVal.str "2n") = Except.ok (16, false) ∧
    parse_n_jobs 8 (PyVal.str "2*n") = Except.ok (16, false) ∧
    parse_n_jobs 8 (PyVal.str "2 * n") = Except.ok (16, false) ∧
    parse_n_jobs 8 (PyVal.str "0.5n") = Except.ok (4, false) ∧
    parse_n_jobs 8 (PyVal.str "0.5") = Except.ok (4, false) ∧
    ((8 / 2 : Nat) : Int) = ⌊((8 : ℚ) / 2)⌋ ∧
    parse_n_jobs 8 (PyVal.str "4") = Except.ok (4, false) ∧
    parse_n_jobs 8 (PyVal.str "0") = Except.ok (1, true) ∧
    parse_n_jobs 8 (PyVal.str "abc") = Except.error PyErr.valueError ∧
    parse_n_jobs 8 PyVal.other = Except.error PyErr.typeError := by
  obtain ⟨h1, h2, h3, h4, h5, h6, h7, h8, h9, h10, h11, h12, h13, h14, h15⟩ :=
    c6_parse_n_jobs 8 (by norm_num)
  exact ⟨h1 3 (by norm_num), h2 0 (by norm_num), h3 ⟨7, 2⟩ (by decide),
    h5, h6, h7, h8, h9, h10, h11, h12 "4" "4" ⟨4, 1⟩ rfl rfl (by decide),
    h13, h14 "abc" rfl, h15⟩
